import Mathlib

/-!
Shallow embedding of the ztunnel relay/agent core (Rust) in Lean 4, together
with theorems settling the spec claims about it.

Embedding conventions:
* Rust `Vec<u8>` payloads are `List Nat`; Rust `&str`/`String` are Lean
  `String` or `List Char` (char-sequence view) where parsing has to be
  reasoned about.
* `tokio::time::Instant` values are `Nat` time stamps; `Instant::now()`
  becomes an explicit `now : Nat` argument threaded into each operation.
* Machine integers (`u32`, `u16`, `usize`) are `Nat` with explicit
  `% 2 ^ 32` where Rust truncates (the shifted CIDR mask).
* Concurrency is flattened: the proxy handler's external interactions
  (registry lookup result, channel-send success, one-shot await outcome)
  are explicit inputs of a pure step function.
-/

namespace Ztunnel

/-- Byte strings (`Vec<u8>`). -/
abbrev Bytes := List Nat

/-! ## Circuit breaker (src/relay/src/circuit_breaker.rs) -/

/-- `CircuitState` from circuit_breaker.rs. -/
inductive CircuitState
  | Closed
  | Open
  | HalfOpen
deriving DecidableEq, Repr

/-- `CircuitBreakerConfig` from circuit_breaker.rs. Durations in seconds. -/
structure CircuitBreakerConfig where
  max_queue_size : Nat
  open_timeout : Nat
  max_request_age : Nat
  failure_threshold : Nat
deriving DecidableEq, Repr

/-- `CircuitBreakerConfig::default()`: 50 queued, 30 s open timeout,
60 s max request age, 3 consecutive failures. -/
def CircuitBreakerConfig.default : CircuitBreakerConfig :=
  { max_queue_size := 50, open_timeout := 30, max_request_age := 60, failure_threshold := 3 }

/-- `QueuedRequest` from circuit_breaker.rs. -/
structure QueuedRequest where
  data : Bytes
  queued_at : Nat
deriving DecidableEq, Repr

/-- `CircuitBreaker` from circuit_breaker.rs (the shared `Arc`/`Mutex`
cells flattened into plain fields). -/
structure CircuitBreaker where
  state : CircuitState
  queue : List QueuedRequest
  config : CircuitBreakerConfig
  consecutive_failures : Nat
  last_state_change : Nat
deriving DecidableEq, Repr

/-- `CircuitBreaker::record_success`: zero the failure counter; if the
state is HalfOpen, transition to Closed and stamp the transition time. -/
def CircuitBreaker.record_success (cb : CircuitBreaker) (now : Nat) : CircuitBreaker :=
  let cb := { cb with consecutive_failures := 0 }
  if cb.state = CircuitState.HalfOpen then
    { cb with state := CircuitState.Closed, last_state_change := now }
  else cb

/-- `CircuitBreaker::record_failure`: increment the counter; when it
reaches the threshold, transition Closed → Open (and only Closed → Open:
any other state is left as it is). -/
def CircuitBreaker.record_failure (cb : CircuitBreaker) (now : Nat) : CircuitBreaker :=
  let failures := cb.consecutive_failures + 1
  let cb := { cb with consecutive_failures := failures }
  if cb.config.failure_threshold ≤ failures then
    if cb.state = CircuitState.Closed then
      { cb with state := CircuitState.Open, last_state_change := now }
    else cb
  else cb

/-- Outcome of `CircuitBreaker::try_send`.  The Rust function returns
`Ok(data)` on `pass` and `Err(())` on both `queued` and `dropped`; the
two error flavours are distinguished here the way the source logs them. -/
inductive TrySendOutcome
  | pass
  | queued
  | dropped
deriving DecidableEq, Repr

/-- `CircuitBreaker::try_send`: Closed/HalfOpen let the payload through;
Open with the timeout elapsed transitions to HalfOpen and lets it
through; otherwise the payload is queued when there is room and dropped
when the queue is full. -/
def CircuitBreaker.try_send (cb : CircuitBreaker) (now : Nat) (data : Bytes) :
    CircuitBreaker × TrySendOutcome :=
  match cb.state with
  | CircuitState.Closed => (cb, TrySendOutcome.pass)
  | CircuitState.HalfOpen => (cb, TrySendOutcome.pass)
  | CircuitState.Open =>
    if cb.config.open_timeout ≤ now - cb.last_state_change then
      ({ cb with state := CircuitState.HalfOpen, last_state_change := now },
        TrySendOutcome.pass)
    else if cb.queue.length < cb.config.max_queue_size then
      ({ cb with queue := cb.queue ++ [⟨data, now⟩] }, TrySendOutcome.queued)
    else
      (cb, TrySendOutcome.dropped)

/-- `CircuitBreaker::drain_queue`: keep exactly the queued entries whose
age is strictly below `max_request_age`, return their payloads in FIFO
order, clear the queue, reset the state to Closed and the counter to 0. -/
def CircuitBreaker.drain_queue (cb : CircuitBreaker) (now : Nat) :
    CircuitBreaker × List Bytes :=
  let valid := (cb.queue.filter fun r => now - r.queued_at < cb.config.max_request_age).map
    QueuedRequest.data
  ({ cb with
      queue := []
      state := CircuitState.Closed
      consecutive_failures := 0
      last_state_change := now }, valid)

/-- Fold a list of failure-report times through `record_failure`. -/
def CircuitBreaker.record_failures (cb : CircuitBreaker) (times : List Nat) : CircuitBreaker :=
  times.foldl CircuitBreaker.record_failure cb

/-! ## IP filtering (src/relay/src/ip_filter.rs)

Rust string slices are embedded as `List Char`.  `str::split(sep)` is
`splitOnChar`, and the standard-library numeric and IP-address parsers
(`u32::from_str`, `Ipv4Addr::from_str`, `IpAddr::from_str`) are modelled
below with their documented grammars. -/

/-- `str::split(sep).collect()`: the runs between occurrences of `sep`
(empty runs included), always at least one element. -/
def splitOnChar (sep : Char) : List Char → List (List Char)
  | [] => [[]]
  | c :: rest =>
    if c = sep then [] :: splitOnChar sep rest
    else
      match splitOnChar sep rest with
      | [] => [[c]]
      | acc :: rs => (c :: acc) :: rs

/-- Left-to-right accumulation of decimal digits; fails at the first
non-digit character. -/
def parseDigitsAux (acc : Nat) : List Char → Option Nat
  | [] => some acc
  | c :: rest => if c.isDigit then parseDigitsAux (acc * 10 + (c.toNat - 48)) rest else none

/-- Decimal parse of a non-empty all-digit string. -/
def parseNat (cs : List Char) : Option Nat :=
  match cs with
  | [] => none
  | _ => parseDigitsAux 0 cs

/-- Rust's integer parsers accept one optional leading `+`. -/
def stripPlus (cs : List Char) : List Char :=
  match cs with
  | '+' :: rest => rest
  | _ => cs

/-- Model of `u32::from_str`: optional `+`, then decimal digits, value
below `2 ^ 32`. -/
def parseU32 (cs : List Char) : Option Nat :=
  match parseNat (stripPlus cs) with
  | some n => if n < 4294967296 then some n else none
  | none => none

/-- One IPv4 octet as `Ipv4Addr::from_str` reads it: 1–3 decimal digits,
no leading zero, value at most 255. -/
def parseOctet (cs : List Char) : Option Nat :=
  match cs with
  | [] => none
  | c :: rest =>
    if c = '0' ∧ rest ≠ [] then none
    else if 3 < (c :: rest).length then none
    else
      match parseDigitsAux 0 (c :: rest) with
      | some v => if v ≤ 255 then some v else none
      | none => none

/-- Model of `Ipv4Addr::from_str`: four octets joined by `.`, returned
as the 32-bit big-endian value. -/
def parseIpv4 (cs : List Char) : Option Nat :=
  match splitOnChar '.' cs with
  | [a, b, c, d] =>
    match parseOctet a, parseOctet b, parseOctet c, parseOctet d with
    | some va, some vb, some vc, some vd =>
      some (va * 16777216 + vb * 65536 + vc * 256 + vd)
    | _, _, _, _ => none
  | _ => none

/-- ASCII hexadecimal digit test. -/
def isHexDigitChar (c : Char) : Bool :=
  c.isDigit || ('a' ≤ c && c ≤ 'f') || ('A' ≤ c && c ≤ 'F')

/-- Value of an ASCII hexadecimal digit. -/
def hexCharVal (c : Char) : Nat :=
  if c.isDigit then c.toNat - 48
  else if 'a' ≤ c && c ≤ 'f' then c.toNat - 87
  else c.toNat - 55

/-- One IPv6 group: 1–4 hexadecimal digits. -/
def parseHexGroup (g : List Char) : Option Nat :=
  if g.isEmpty then none
  else if 4 < g.length then none
  else if g.all isHexDigitChar then
    some (g.foldl (fun acc c => acc * 16 + hexCharVal c) 0)
  else none

/-- Trailing groups of an IPv6 textual address; the very last group may
be an embedded dotted-quad IPv4 address (two 16-bit groups). -/
def parseGroupsTail : List (List Char) → Option (List Nat)
  | [] => some []
  | [g] =>
    if g.contains '.' then
      match parseIpv4 g with
      | some ip => some [ip / 65536, ip % 65536]
      | none => none
    else (parseHexGroup g).map fun v => [v]
  | g :: rest =>
    match parseHexGroup g, parseGroupsTail rest with
    | some v, some vs => some (v :: vs)
    | _, _ => none

/-- Hex-only group list (the part before a `::`, where an embedded IPv4
tail is not permitted). -/
def parseGroupsNoDot : List (List Char) → Option (List Nat)
  | [] => some []
  | g :: rest =>
    match parseHexGroup g, parseGroupsNoDot rest with
    | some v, some vs => some (v :: vs)
    | _, _ => none

/-- Search for the single `::` marker in the non-leading position:
`pre ++ [[]] ++ post` (with `pre ++ [[], []]` for a trailing `::`). -/
def emptySplitAux (pre : List (List Char)) : List (List Char) → Option (List (List Char) × List (List Char))
  | [] => none
  | [] :: rest =>
    if rest = [[]] then some (pre.reverse, [])
    else if rest ≠ [] ∧ rest.all (fun g => !g.isEmpty) then some (pre.reverse, rest)
    else none
  | g :: rest => emptySplitAux (g :: pre) rest

/-- Split the `:`-separated parts of an IPv6 literal at its `::`
abbreviation, returning the explicit leading and trailing group texts. -/
def emptySplit (parts : List (List Char)) : Option (List (List Char) × List (List Char)) :=
  match parts with
  | [] :: [] :: rest2 =>
    if rest2 = [[]] then some ([], [])
    else if rest2 ≠ [] ∧ rest2.all (fun g => !g.isEmpty) then some ([], rest2)
    else none
  | [] :: _ => none
  | g :: rest => emptySplitAux [g] rest
  | [] => none

/-- Model of `Ipv6Addr::from_str`: eight 16-bit groups, `::`
abbreviation for a run of zero groups, optional embedded IPv4 tail.
(Scope identifiers are not part of `Ipv6Addr`'s grammar.) -/
def parseIpv6 (cs : List Char) : Option Nat :=
  let parts := splitOnChar ':' cs
  let assemble : List Nat → Option Nat := fun vs =>
    if vs.length = 8 then some (vs.foldl (fun acc v => acc * 65536 + v) 0) else none
  if parts.all (fun g => !g.isEmpty) then
    match parseGroupsTail parts with
    | some vs => assemble vs
    | none => none
  else
    match emptySplit parts with
    | some (pre, post) =>
      match parseGroupsNoDot pre, parseGroupsTail post with
      | some vs1, some vs2 =>
        if vs1.length + vs2.length ≤ 7 then
          assemble (vs1 ++ List.replicate (8 - vs1.length - vs2.length) 0 ++ vs2)
        else none
      | _, _ => none
    | none => none

/-- `std::net::IpAddr`. -/
inductive IpAddr
  | v4 (val : Nat)
  | v6 (val : Nat)
deriving DecidableEq, Repr

/-- Model of `IpAddr::from_str`: IPv4 first, IPv6 otherwise. -/
def IpAddr.fromStr (cs : List Char) : Option IpAddr :=
  match parseIpv4 cs with
  | some ip => some (IpAddr.v4 ip)
  | none => (parseIpv6 cs).map IpAddr.v6

/-- `CidrRange` from ip_filter.rs. -/
structure CidrRange where
  network : Nat
  mask : Nat
  raw : List Char
deriving DecidableEq, Repr

/-- `CidrRange::parse`: split on `/` into exactly two parts, parse the
IPv4 network and the prefix length, reject prefixes above 32, and build
the mask as the truncated 32-bit shift the source computes. -/
def CidrRange.parse (cidr : List Char) : Option CidrRange :=
  match splitOnChar '/' cidr with
  | [ipPart, prefixPart] =>
    match parseIpv4 ipPart, parseU32 prefixPart with
    | some ip, some prefixLen =>
      if 32 < prefixLen then none
      else
        let mask := if prefixLen = 0 then 0 else (4294967295 <<< (32 - prefixLen)) % 4294967296
        some { network := ip &&& mask, mask := mask, raw := cidr }
    | _, _ => none
  | _ => none

/-- `CidrRange::contains`: bitwise membership for IPv4; IPv6 addresses
are never contained. -/
def CidrRange.contains (r : CidrRange) (ip : IpAddr) : Bool :=
  match ip with
  | IpAddr.v4 v => decide ((v &&& r.mask) = r.network)
  | IpAddr.v6 _ => false

/-- `IpFilter` from ip_filter.rs. -/
structure IpFilter where
  allow : List CidrRange
  deny : List CidrRange
deriving DecidableEq, Repr

/-- `IpFilter::default()`: both lists empty. -/
def IpFilter.default : IpFilter := { allow := [], deny := [] }

/-- `IpFilter::from_strings`: parse each list, silently discarding
entries that fail to parse. -/
def IpFilter.from_strings (allow deny : List (List Char)) : IpFilter :=
  { allow := allow.filterMap CidrRange.parse, deny := deny.filterMap CidrRange.parse }

/-- `IpFilter::is_allowed`: deny first; an empty allow list allows
everything not denied; otherwise the allow list must match. -/
def IpFilter.is_allowed (f : IpFilter) (ip : IpAddr) : Bool :=
  if f.deny.any (fun c => c.contains ip) then false
  else if f.allow.isEmpty then true
  else f.allow.any (fun c => c.contains ip)

/-- `IpFilter::is_empty`: no rules at all. -/
def IpFilter.is_empty (f : IpFilter) : Bool :=
  f.allow.isEmpty && f.deny.isEmpty

/-- `str::trim` (whitespace from both ends). -/
def trimChars (cs : List Char) : List Char :=
  ((cs.dropWhile Char.isWhitespace).reverse.dropWhile Char.isWhitespace).reverse

/-- `str::eq_ignore_ascii_case` (`Char.toLower` folds exactly the ASCII
uppercase letters, as the Rust method does). -/
def eqIgnoreAsciiCase (a b : String) : Bool :=
  a.data.map Char.toLower == b.data.map Char.toLower

/-- `extract_client_ip` from ip_filter.rs: first parseable
`X-Forwarded-For` entry (first comma-separated value, trimmed), then the
first parseable `X-Real-IP`, then the peer socket address. -/
def extract_client_ip (headers : List (String × String)) (peerAddr : Option IpAddr) :
    Option IpAddr :=
  match headers.findSome? (fun kv =>
      if eqIgnoreAsciiCase kv.1 "x-forwarded-for" then
        IpAddr.fromStr (trimChars ((splitOnChar ',' kv.2.data).headD []))
      else none) with
  | some ip => some ip
  | none =>
    match headers.findSome? (fun kv =>
        if eqIgnoreAsciiCase kv.1 "x-real-ip" then
          IpAddr.fromStr (trimChars kv.2.data)
        else none) with
    | some ip => some ip
    | none => peerAddr

/-! ## Tunnel records and the registry (src/relay/src/tunnel.rs, main.rs)

The registry `HashMap<String, Tunnel>` is embedded as an association
list with at most one binding per key; the pending-request table and
channels live in the proxy-handler step function's explicit inputs and
outputs. -/

/-- `TunnelRequest` from tunnel.rs. -/
structure TunnelRequest where
  id : String
  method : String
  path : String
  headers : List (String × String)
  body : Option Bytes
deriving DecidableEq, Repr

/-- `TunnelResponse` from tunnel.rs. -/
structure TunnelResponse where
  id : String
  status : Nat
  headers : List (String × String)
  body : Option Bytes
deriving DecidableEq, Repr

/-- The relay-side `Tunnel` record (tunnel.rs), restricted to the fields
the proxy handler reads: the channels and pending table are represented
by the handler's explicit event inputs. -/
structure Tunnel where
  subdomain : String
  ip_filter : IpFilter
  circuit_breaker : CircuitBreaker
deriving DecidableEq, Repr

/-- `HashMap::get`. -/
def regLookup {α : Type} (reg : List (String × α)) (k : String) : Option α :=
  (reg.find? fun p => p.1 == k).map Prod.snd

/-- `HashMap::remove` (as far as the remaining map is concerned). -/
def regRemove {α : Type} (reg : List (String × α)) (k : String) : List (String × α) :=
  reg.filter fun p => p.1 != k

/-- `HashMap::insert` (replacing any previous binding of the key). -/
def regInsert {α : Type} (reg : List (String × α)) (k : String) (v : α) :
    List (String × α) :=
  regRemove reg k ++ [(k, v)]

/-! ## Relay proxy handler (src/relay/src/main.rs, `proxy_handler`) -/

/-- `host.split('.').next().unwrap_or("")`: the leftmost dot-separated
label of the Host header. -/
def subdomainOf (host : String) : String :=
  ⟨(splitOnChar '.' host.data).headD []⟩

/-- `axum::body::to_bytes(body, limit)`: the collected body if it stays
within `limit` bytes, an error (`none`) beyond it. -/
def toBytesLimited (body : Bytes) (limit : Nat) : Option Bytes :=
  if body.length ≤ limit then some body else none

/-- The handler's body read (main.rs lines 242–245): a successful
non-empty read gives `some`; an empty body **and the over-limit error**
both collapse to `none`. -/
def bodyBytesOf (rawBody : Bytes) : Option Bytes :=
  match toBytesLimited rawBody (10 * 1024 * 1024) with
  | some b => if b ≠ [] then some b else none
  | none => none

/-- Length-prefixed string encoding, a stand-in for JSON text. -/
def encodeStr (s : String) : Bytes :=
  s.length :: s.data.map Char.toNat

/-- Stand-in for `serde_json::to_vec(&TunnelRequest)`: a total, concrete
byte encoding of the record (the relay never decodes these bytes; they
travel opaquely to the agent). -/
def encodeRequest (r : TunnelRequest) : Bytes :=
  encodeStr r.id ++ encodeStr r.method ++ encodeStr r.path ++
    r.headers.length :: (r.headers.map fun kv => encodeStr kv.1 ++ encodeStr kv.2).flatten ++
    (match r.body with
      | none => [0]
      | some b => 1 :: b.length :: b)

/-- `StatusCode::from_u16(s).unwrap_or(StatusCode::OK)`: valid HTTP
status codes are 100–999, anything else falls back to 200. -/
def statusOrDefault (s : Nat) : Nat :=
  if 100 ≤ s ∧ s ≤ 999 then s else 200

/-- The IP-filter step of `proxy_handler` (main.rs lines 262–270): a
request is rejected when the filter is non-empty, a client IP could be
extracted (peer address never supplied), and the filter disallows it. -/
def filterRejects (headers : List (String × String)) (t : Tunnel) : Bool :=
  if !t.ip_filter.is_empty then
    match extract_client_ip headers none with
    | some clientIp => !t.ip_filter.is_allowed clientIp
    | none => false
  else false

/-- Outcome of awaiting the one-shot response receptacle with the 30 s
timeout: a delivered value, a dropped sender, or the timeout. -/
inductive AwaitOutcome
  | response (r : TunnelResponse)
  | closed
  | timedOut
deriving DecidableEq, Repr

/-- The proxy handler's inputs: the request, the shared state it reads,
and the outcome of each of its external interactions. -/
structure ProxyEnv where
  registry : List (String × Tunnel)
  host : String
  method : String
  path : String
  headers : List (String × String)
  rawBody : Bytes
  requestId : String
  now : Nat
  sendOk : Bool
  awaitOutcome : AwaitOutcome
deriving Repr

/-- The serialized request frame the handler dispatches (main.rs lines
272–285): the `TunnelRequest` built from the parsed pieces, encoded. -/
def requestFrameOf (env : ProxyEnv) : Bytes :=
  encodeRequest
    { id := env.requestId, method := env.method, path := env.path, headers := env.headers,
      body := bodyBytesOf env.rawBody }

/-- Observable outcome of one `proxy_handler` invocation: the HTTP
status, which steps executed, and the final breaker of the resolved
tunnel. -/
structure ProxyResult where
  status : Nat
  filterRejected : Bool
  idAllocated : Bool
  trySendInvoked : Bool
  pendingInserted : Bool
  pendingRemoved : Bool
  failureRecorded : Bool
  enqueueAttempted : Bool
  breaker : Option CircuitBreaker
  responseBody : Bytes
deriving DecidableEq, Repr

/-- All-false result skeleton around a final breaker value. -/
def ProxyResult.base (breaker : Option CircuitBreaker) : ProxyResult :=
  { status := 0
    filterRejected := false
    idAllocated := false
    trySendInvoked := false
    pendingInserted := false
    pendingRemoved := false
    failureRecorded := false
    enqueueAttempted := false
    breaker := breaker
    responseBody := [] }

/-- `proxy_handler` from main.rs, as a pure step function.  The order of
steps mirrors the source: body read, registry lookup, IP filter, request
id, serialization, `try_send`, pending insert, outbound enqueue, await. -/
def proxy_handler (env : ProxyEnv) : ProxyResult :=
  let subdomain := subdomainOf env.host
  match regLookup env.registry subdomain with
  | none => { ProxyResult.base none with status := 404 }
  | some tunnel =>
    if filterRejects env.headers tunnel then
      { ProxyResult.base (some tunnel.circuit_breaker) with
          status := 403
          filterRejected := true }
    else
      let data := requestFrameOf env
      match tunnel.circuit_breaker.try_send env.now data with
      | (cb, TrySendOutcome.pass) =>
        if !env.sendOk then
          { ProxyResult.base (some (cb.record_failure env.now)) with
              status := 502
              idAllocated := true
              trySendInvoked := true
              pendingInserted := true
              pendingRemoved := true
              failureRecorded := true
              enqueueAttempted := true }
        else
          match env.awaitOutcome with
          | AwaitOutcome.response r =>
            { ProxyResult.base (some cb) with
                status := statusOrDefault r.status
                idAllocated := true
                trySendInvoked := true
                pendingInserted := true
                enqueueAttempted := true
                responseBody := r.body.getD [] }
          | AwaitOutcome.closed =>
            { ProxyResult.base (some (cb.record_failure env.now)) with
                status := 502
                idAllocated := true
                trySendInvoked := true
                pendingInserted := true
                pendingRemoved := true
                failureRecorded := true
                enqueueAttempted := true }
          | AwaitOutcome.timedOut =>
            { ProxyResult.base (some (cb.record_failure env.now)) with
                status := 504
                idAllocated := true
                trySendInvoked := true
                pendingInserted := true
                pendingRemoved := true
                failureRecorded := true
                enqueueAttempted := true }
      | (cb, TrySendOutcome.queued) =>
        { ProxyResult.base (some cb) with
            status := 503
            idAllocated := true
            trySendInvoked := true }
      | (cb, TrySendOutcome.dropped) =>
        { ProxyResult.base (some cb) with
            status := 503
            idAllocated := true
            trySendInvoked := true }

/-! ## Registration handler (src/relay/src/main.rs, `handle_socket`) -/

/-- The shapes a JSON field value can take, as far as
`Value::as_str` distinguishes them. -/
inductive JsonVal
  | str (s : String)
  | other
deriving DecidableEq, Repr

/-- Subdomain extraction from the registration message (main.rs lines
110–113): `v.get("subdomain").and_then(as_str)` with the generated token
only as the fallback for a missing or non-string field. -/
def advertisedSubdomain (field : Option JsonVal) (generated : String) : String :=
  match field with
  | some (JsonVal.str s) => s
  | _ => generated

/-- Lowercase hexadecimal digit, as `format!("{:x}")` prints one. -/
def hexDigitChar (n : Nat) : Char :=
  if n < 10 then Char.ofNat (48 + n) else Char.ofNat (87 + n)

/-- Hexadecimal digits of `n`, most significant first (empty for 0). -/
def hexDigits (n : Nat) : List Char :=
  if h : n = 0 then []
  else hexDigits (n / 16) ++ [hexDigitChar (n % 16)]
decreasing_by exact Nat.div_lt_self (Nat.pos_of_ne_zero h) (by decide)

/-- `format!("{:x}", n)`. -/
def natToHex (n : Nat) : List Char :=
  if n = 0 then ['0'] else hexDigits n

/-- `gen_subdomain` from main.rs: `"t"` followed by the clock
milliseconds modulo `0xFFFFFF` in lowercase hex. -/
def gen_subdomain (ms : Nat) : String :=
  ⟨'t' :: natToHex (ms % 0xFFFFFF)⟩

/-- `gen_subdomain_short` from main.rs: clock nanoseconds modulo `0xFFF`
in lowercase hex. -/
def gen_subdomain_short (ns : Nat) : String :=
  ⟨natToHex (ns % 0xFFF)⟩

/-- Subdomain conflict resolution (main.rs lines 137–148): append
`"-" ++ suffix` exactly when the requested key is already taken. -/
def resolveSubdomain {α : Type} (tunnels : List (String × α)) (requested suffix : String) :
    String :=
  if (regLookup tunnels requested).isSome then requested ++ "-" ++ suffix else requested

/-- Result of the registration step: the updated registry, the key the
tunnel was inserted under, and the `reassigned` acknowledgement flag. -/
structure RegOutcome where
  registry : List (String × Tunnel)
  final_subdomain : String
  reassigned : Bool
deriving Repr

/-- The registration step of `handle_socket` (main.rs lines 136–162):
resolve the collision, build the tunnel, insert it under the final
subdomain, and report `reassigned` when the key changed. -/
def registerTunnel (tunnels : List (String × Tunnel)) (requested suffix : String)
    (filt : IpFilter) (cb : CircuitBreaker) : RegOutcome :=
  let final := resolveSubdomain tunnels requested suffix
  let t : Tunnel := { subdomain := final, ip_filter := filt, circuit_breaker := cb }
  { registry := regInsert tunnels final t
    final_subdomain := final
    reassigned := final != requested }

/-- The registry cleanup on loop exit (main.rs line 221):
`state.tunnels.write().await.remove(&subdomain)` — the **originally
requested** subdomain is removed, not `final_subdomain`. -/
def handleSocketExitCleanup (tunnels : List (String × Tunnel)) (requested : String) :
    List (String × Tunnel) :=
  regRemove tunnels requested

/-! ## Agent forwarder (src/client/src/main.rs) -/

/-- `find_header_end` from client/main.rs: index of the first
`\r\n\r\n` window. -/
def find_header_end : Bytes → Option Nat
  | 13 :: 10 :: 13 :: 10 :: _ => some 0
  | _ :: rest => (find_header_end rest).map (· + 1)
  | [] => none

/-- The Content-Length completion loop (client/main.rs lines 338–342):
keep reading stream chunks while the body is short of `cl`; a zero-length
read (EOF, modelled by an empty chunk or stream exhaustion) stops it. -/
def fillBody (chunks : List Bytes) (body : Bytes) (cl : Nat) : Bytes :=
  match chunks with
  | [] => body
  | c :: rest =>
    if body.length < cl then
      if c.isEmpty then body else fillBody rest (body ++ c) cl
    else body

/-- The overrun truncation (client/main.rs lines 343–345). -/
def truncateBody (body : Bytes) (cl : Nat) : Bytes :=
  if cl < body.length then body.take cl else body

/-- Body assembly of the agent's response parse (client/main.rs lines
336–346), once the header separator has been located at `hend`: with a
Content-Length, fill up to it from the remaining stream chunks and
truncate any overrun; without one, the bytes already read past the
separator are the body. -/
def responseBodyOf (buf : Bytes) (hend : Nat) (contentLen : Option Nat)
    (chunks : List Bytes) : Bytes :=
  let body := buf.drop (hend + 4)
  match contentLen with
  | some cl => truncateBody (fillBody chunks body cl) cl
  | none => body

/-! ## Input families and fixtures for the theorems -/

/-- Decimal digit character. -/
def decDigitChar (n : Nat) : Char :=
  Char.ofNat (48 + n)

/-- Decimal digits of `n`, most significant first (empty for 0). -/
def decDigits (n : Nat) : List Char :=
  if h : n = 0 then []
  else decDigits (n / 10) ++ [decDigitChar (n % 10)]
decreasing_by exact Nat.div_lt_self (Nat.pos_of_ne_zero h) (by decide)

/-- Canonical decimal rendering of `n` (what `format!("{}", n)` prints). -/
def showNat (n : Nat) : List Char :=
  if n = 0 then ['0'] else decDigits n

/-- The dotted-quad text `a.b.c.d`. -/
def mkIpv4Str (a b c d : Nat) : List Char :=
  showNat a ++ '.' :: (showNat b ++ '.' :: (showNat c ++ '.' :: showNat d))

/-- The CIDR text `a.b.c.d/p`. -/
def mkCidrStr (a b c d p : Nat) : List Char :=
  mkIpv4Str a b c d ++ '/' :: showNat p

/-- The 32-bit value of the quad `a.b.c.d`. -/
def ipv4Val (a b c d : Nat) : Nat :=
  a * 16777216 + b * 65536 + c * 256 + d

/-- The mask `CidrRange::parse` computes for prefix length `p`. -/
def maskOf (p : Nat) : Nat :=
  if p = 0 then 0 else (4294967295 <<< (32 - p)) % 4294967296

/-- Lowercase ASCII alphanumeric character. -/
def isLowerAlnum (c : Char) : Bool :=
  c.isDigit || ('a' ≤ c && c ≤ 'z')

/-- A fresh breaker in the default configuration, as `handle_socket`
constructs one (`CircuitBreaker::new(Default::default())`). -/
def cbClosedDefault : CircuitBreaker :=
  { state := CircuitState.Closed
    queue := []
    config := CircuitBreakerConfig.default
    consecutive_failures := 0
    last_state_change := 0 }

/-! ## Circuit-breaker lemmas -/

theorem record_failures_nil (cb : CircuitBreaker) : cb.record_failures [] = cb := rfl

theorem record_failures_cons (cb : CircuitBreaker) (t : Nat) (ts : List Nat) :
    cb.record_failures (t :: ts) = (cb.record_failure t).record_failures ts := rfl

theorem record_failure_state (cb : CircuitBreaker) (t : Nat) :
    (cb.record_failure t).state =
      if cb.config.failure_threshold ≤ cb.consecutive_failures + 1 ∧
          cb.state = CircuitState.Closed then
        CircuitState.Open
      else cb.state := by
  unfold CircuitBreaker.record_failure
  by_cases h1 : cb.config.failure_threshold ≤ cb.consecutive_failures + 1 <;>
    by_cases h2 : cb.state = CircuitState.Closed <;>
    simp [h1, h2]

theorem record_failure_failures (cb : CircuitBreaker) (t : Nat) :
    (cb.record_failure t).consecutive_failures = cb.consecutive_failures + 1 := by
  unfold CircuitBreaker.record_failure
  by_cases h1 : cb.config.failure_threshold ≤ cb.consecutive_failures + 1 <;>
    by_cases h2 : cb.state = CircuitState.Closed <;>
    simp [h1, h2]

theorem record_failure_config (cb : CircuitBreaker) (t : Nat) :
    (cb.record_failure t).config = cb.config := by
  unfold CircuitBreaker.record_failure
  by_cases h1 : cb.config.failure_threshold ≤ cb.consecutive_failures + 1 <;>
    by_cases h2 : cb.state = CircuitState.Closed <;>
    simp [h1, h2]

theorem record_failures_open (ts : List Nat) (cb : CircuitBreaker)
    (h : cb.state = CircuitState.Open) :
    (cb.record_failures ts).state = CircuitState.Open := by
  induction ts generalizing cb with
  | nil => exact h
  | cons t ts ih =>
    rw [record_failures_cons]
    have h1 : (cb.record_failure t).state = CircuitState.Open := by
      rw [record_failure_state]
      simp [h]
    exact ih _ h1

theorem record_failures_closed_open (ts : List Nat) (cb : CircuitBreaker)
    (hst : cb.state = CircuitState.Closed)
    (hlen : cb.config.failure_threshold ≤ cb.consecutive_failures + ts.length)
    (hlt : cb.consecutive_failures < cb.config.failure_threshold) :
    (cb.record_failures ts).state = CircuitState.Open := by
  induction ts generalizing cb with
  | nil => simp at hlen; omega
  | cons t ts ih =>
    rw [record_failures_cons]
    by_cases hth : cb.config.failure_threshold ≤ cb.consecutive_failures + 1
    · have h1 : (cb.record_failure t).state = CircuitState.Open := by
        rw [record_failure_state, if_pos ⟨hth, hst⟩]
      exact record_failures_open ts _ h1
    · have h1 : (cb.record_failure t).state = CircuitState.Closed := by
        rw [record_failure_state]
        simp only [hst]
        rw [if_neg (by tauto)]
      refine ih _ h1 ?_ ?_ <;>
        rw [record_failure_failures, record_failure_config] <;>
        simp at hlen ⊢ <;> omega

/-! ## Claim C4 -/

/-- C4 counterexample: with the default configuration
(failure-threshold 3), a breaker that starts in HalfOpen and records
3 ≥ threshold consecutive failures is **not** Open afterwards — the
source's `record_failure` transitions only Closed → Open. -/
theorem halfopen_failure_counterexample :
    (CircuitBreaker.record_failures
        { state := CircuitState.HalfOpen
          queue := []
          config := CircuitBreakerConfig.default
          consecutive_failures := 0
          last_state_change := 0 } [1, 2, 3]).state ≠ CircuitState.Open ∧
      CircuitBreakerConfig.default.failure_threshold ≤ 3 := by
  decide

/-- C4 (amended): starting from Closed or Open, after N consecutive
`record_failure` calls with N ≥ failure-threshold ≥ 1 the state is Open;
a recorded failure while HalfOpen leaves the state HalfOpen; and after
any `record_success` while HalfOpen, the state is Closed. -/
theorem breaker_transition_spec (cb : CircuitBreaker) (ts : List Nat) (t u : Nat) :
    (cb.state = CircuitState.Closed ∨ cb.state = CircuitState.Open →
      0 < cb.config.failure_threshold →
      cb.config.failure_threshold ≤ ts.length →
      (cb.record_failures ts).state = CircuitState.Open) ∧
    (cb.state = CircuitState.HalfOpen →
      (cb.record_failure t).state = CircuitState.HalfOpen) ∧
    (cb.state = CircuitState.HalfOpen →
      (cb.record_success u).state = CircuitState.Closed) := by
  refine ⟨?_, ?_, ?_⟩
  · rintro (hst | hst) hpos hlen
    · by_cases hc : cb.consecutive_failures < cb.config.failure_threshold
      · exact record_failures_closed_open ts cb hst (by omega) hc
      · cases ts with
        | nil => simp at hlen; omega
        | cons t0 ts' =>
          rw [record_failures_cons]
          have h1 : (cb.record_failure t0).state = CircuitState.Open := by
            rw [record_failure_state, if_pos ⟨by omega, hst⟩]
          exact record_failures_open ts' _ h1
    · exact record_failures_open ts cb hst
  · intro hst
    rw [record_failure_state]
    simp [hst]
  · intro hst
    unfold CircuitBreaker.record_success
    simp [hst]

/-- C4 witness: a fresh Closed breaker with the default threshold 3 is
Open after 3 consecutive failures, and a HalfOpen breaker stays HalfOpen
on a failure and closes on a success. -/
theorem breaker_transition_spec_witness :
    (CircuitBreaker.record_failures cbClosedDefault [5, 6, 7]).state = CircuitState.Open ∧
      (CircuitBreaker.record_failure
          { cbClosedDefault with state := CircuitState.HalfOpen } 9).state =
        CircuitState.HalfOpen ∧
      (CircuitBreaker.record_success
          { cbClosedDefault with state := CircuitState.HalfOpen } 9).state =
        CircuitState.Closed :=
  ⟨(breaker_transition_spec cbClosedDefault [5, 6, 7] 0 0).1 (Or.inl rfl) (by decide) (by decide),
    (breaker_transition_spec { cbClosedDefault with state := CircuitState.HalfOpen } [] 9 9).2.1 rfl,
    (breaker_transition_spec { cbClosedDefault with state := CircuitState.HalfOpen } [] 9 9).2.2 rfl⟩

/-! ## Claim C5 -/

/-- C5: `try_send` behaves exactly as specified — Closed or HalfOpen
pass the payload unchanged; Open with the timeout not yet elapsed
enqueues below `max_queue_size` and drops at capacity; Open with the
timeout elapsed transitions to HalfOpen and passes; and the queue never
grows beyond `max_queue_size`. -/
theorem try_send_spec (cb : CircuitBreaker) (now : Nat) (data : Bytes) :
    (cb.state = CircuitState.Closed ∨ cb.state = CircuitState.HalfOpen →
      cb.try_send now data = (cb, TrySendOutcome.pass)) ∧
    (cb.state = CircuitState.Open →
      cb.config.open_timeout ≤ now - cb.last_state_change →
      cb.try_send now data =
        ({ cb with state := CircuitState.HalfOpen, last_state_change := now },
          TrySendOutcome.pass)) ∧
    (cb.state = CircuitState.Open →
      now - cb.last_state_change < cb.config.open_timeout →
      cb.queue.length < cb.config.max_queue_size →
      cb.try_send now data =
        ({ cb with queue := cb.queue ++ [⟨data, now⟩] }, TrySendOutcome.queued)) ∧
    (cb.state = CircuitState.Open →
      now - cb.last_state_change < cb.config.open_timeout →
      cb.config.max_queue_size ≤ cb.queue.length →
      cb.try_send now data = (cb, TrySendOutcome.dropped)) ∧
    (cb.queue.length ≤ cb.config.max_queue_size →
      (cb.try_send now data).1.queue.length ≤ cb.config.max_queue_size) := by
  refine ⟨?_, ?_, ?_, ?_, ?_⟩
  · rintro (hst | hst) <;> simp [CircuitBreaker.try_send, hst]
  · intro hst helapsed
    simp [CircuitBreaker.try_send, hst, helapsed]
  · intro hst hlt hqlen
    simp only [CircuitBreaker.try_send, hst]
    rw [if_neg (by omega), if_pos hqlen]
  · intro hst hlt hqlen
    simp only [CircuitBreaker.try_send, hst]
    rw [if_neg (by omega), if_neg (by omega)]
  · intro hle
    cases hst : cb.state <;> simp only [CircuitBreaker.try_send, hst]
    · exact hle
    · split_ifs with h1 h2
      · exact hle
      · simp
        omega
      · exact hle
    · exact hle

/-- C5 witness: an Open breaker whose 30 s timeout has elapsed passes
the probe payload and moves to HalfOpen. -/
theorem try_send_spec_witness :
    CircuitBreaker.try_send { cbClosedDefault with state := CircuitState.Open } 40 [1] =
      ({ cbClosedDefault with state := CircuitState.HalfOpen, last_state_change := 40 },
        TrySendOutcome.pass) :=
  (try_send_spec { cbClosedDefault with state := CircuitState.Open } 40 [1]).2.1 rfl (by decide)

/-! ## Claim C7 -/

/-- C7 counterexample: a queued entry whose age equals `max_request_age`
exactly (60 s in the default configuration) is **not** older than the
bound, yet `drain_queue` removes it instead of returning its payload. -/
theorem drain_age_boundary_counterexample :
    ¬ ((CircuitBreaker.drain_queue
          { state := CircuitState.Open
            queue := [{ data := [7], queued_at := 0 }]
            config := CircuitBreakerConfig.default
            consecutive_failures := 2
            last_state_change := 0 } 60).2 = [[7]]) ∧
      ¬ (CircuitBreakerConfig.default.max_request_age < 60 - 0) := by
  decide

/-- C7 (amended): `drain_queue` removes exactly the queued entries whose
age is at least `max_request_age` (keeping the strictly younger ones),
returns the payloads of the kept entries in FIFO order, leaves the queue
empty, transitions the state to Closed and resets the failure counter. -/
theorem drain_queue_spec (cb : CircuitBreaker) (now : Nat) :
    (cb.drain_queue now).2 =
      (cb.queue.filter fun r => now - r.queued_at < cb.config.max_request_age).map
        QueuedRequest.data ∧
    (cb.drain_queue now).1.queue = [] ∧
    (cb.drain_queue now).1.state = CircuitState.Closed ∧
    (cb.drain_queue now).1.consecutive_failures = 0 :=
  ⟨rfl, rfl, rfl, rfl⟩

/-! ## Claim C2 -/

/-- C2 (code bug evidence): when the requested subdomain "app" collides
and the tunnel is registered under "app-abc" (reassigned), the exit
cleanup of its registration handler removes the registry entry of the
**requested** subdomain "app" — evicting the other tunnel — and leaves
its own "app-abc" entry in the registry. -/
theorem exit_cleanup_removes_requested_key :
    (registerTunnel (registerTunnel [] "app" "9f3" IpFilter.default cbClosedDefault).registry
        "app" "abc" IpFilter.default cbClosedDefault).final_subdomain = "app-abc" ∧
      (registerTunnel (registerTunnel [] "app" "9f3" IpFilter.default cbClosedDefault).registry
          "app" "abc" IpFilter.default cbClosedDefault).reassigned = true ∧
      regLookup
          (handleSocketExitCleanup
            (registerTunnel (registerTunnel [] "app" "9f3" IpFilter.default cbClosedDefault).registry
              "app" "abc" IpFilter.default cbClosedDefault).registry "app")
          "app-abc" =
        some
          { subdomain := "app-abc", ip_filter := IpFilter.default,
            circuit_breaker := cbClosedDefault } ∧
      regLookup
          (handleSocketExitCleanup
            (registerTunnel (registerTunnel [] "app" "9f3" IpFilter.default cbClosedDefault).registry
              "app" "abc" IpFilter.default cbClosedDefault).registry "app")
          "app" = none := by
  decide

/-! ## Claim C8 -/

/-- C8 counterexample: an advertisement carrying an **empty-string**
subdomain is registered under the empty string itself, not under the
generated token — generation only replaces a missing or non-string
field. -/
theorem empty_subdomain_kept_counterexample :
    (registerTunnel [] (advertisedSubdomain (some (JsonVal.str "")) (gen_subdomain 0)) "fff"
        IpFilter.default cbClosedDefault).final_subdomain = "" ∧
      gen_subdomain 0 ≠ "" := by
  decide

theorem hexDigitChar_lowerAlnum (m : Nat) (hm : m < 16) :
    isLowerAlnum (hexDigitChar m) = true := by
  interval_cases m <;> decide

theorem hexDigits_lowerAlnum (n : Nat) : ∀ c ∈ hexDigits n, isLowerAlnum c = true := by
  induction n using Nat.strong_induction_on with
  | _ n ih =>
    by_cases h : n = 0
    · rw [hexDigits]
      simp [h]
    · rw [hexDigits]
      rw [dif_neg h]
      intro c hc
      rcases List.mem_append.mp hc with hmem | hmem
      · exact ih (n / 16) (Nat.div_lt_self (Nat.pos_of_ne_zero h) (by decide)) c hmem
      · rcases List.mem_singleton.mp hmem with rfl
        exact hexDigitChar_lowerAlnum (n % 16) (Nat.mod_lt n (by decide))

/-- C8 (amended): the relay generates a subdomain (a lowercase
alphanumeric token) only when the advertised field is absent or not a
string; an advertisement carrying an empty-string subdomain keeps the
empty string instead of a generated token. -/
theorem subdomain_generation_spec (ms : Nat) (field : Option JsonVal)
    (hf : field = none ∨ field = some JsonVal.other) :
    advertisedSubdomain field (gen_subdomain ms) = gen_subdomain ms ∧
      (gen_subdomain ms).data.all isLowerAlnum = true ∧
      advertisedSubdomain (some (JsonVal.str "")) (gen_subdomain ms) = "" := by
  refine ⟨?_, ?_, rfl⟩
  · rcases hf with h | h <;> subst h <;> rfl
  · show ('t' :: natToHex (ms % 0xFFFFFF)).all isLowerAlnum = true
    simp only [List.all_eq_true]
    intro c hc
    rcases hc with _ | hc
    · decide
    · rename_i hc
      unfold natToHex at hc
      by_cases h : ms % 0xFFFFFF = 0
      · rw [if_pos h] at hc
        rcases List.mem_singleton.mp hc with rfl
        decide
      · rw [if_neg h] at hc
        exact hexDigits_lowerAlnum _ c hc

/-- C8 witness: with a missing subdomain field and clock value 0 the
generated token "t0" is used and is lowercase alphanumeric, while an
empty-string advertisement yields the empty string. -/
theorem subdomain_generation_spec_witness :
    advertisedSubdomain none (gen_subdomain 0) = gen_subdomain 0 ∧
      (gen_subdomain 0).data.all isLowerAlnum = true ∧
      advertisedSubdomain (some (JsonVal.str "")) (gen_subdomain 0) = "" :=
  subdomain_generation_spec 0 none (Or.inl rfl)

/-! ## Claim C9 -/

theorem truncate_take (body : Bytes) (cl : Nat) : truncateBody body cl = body.take cl := by
  unfold truncateBody
  by_cases h : cl < body.length
  · rw [if_pos h]
  · rw [if_neg h, List.take_of_length_le (by omega)]

theorem fillBody_take (chunks : List Bytes) (body : Bytes) (cl : Nat)
    (hch : ∀ c ∈ chunks, c ≠ []) :
    (fillBody chunks body cl).take cl = (body ++ chunks.flatten).take cl := by
  induction chunks generalizing body with
  | nil => simp [fillBody]
  | cons c rest ih =>
    rw [fillBody]
    by_cases hlen : body.length < cl
    · rw [if_pos hlen]
      have hce : c.isEmpty = false := by
        cases c with
        | nil => exact absurd rfl (hch [] (by simp))
        | cons a as => rfl
      rw [hce]
      simp only [Bool.false_eq_true, if_false]
      rw [ih _ fun x hx => hch x (List.mem_cons_of_mem _ hx)]
      rw [List.append_assoc, List.flatten_cons]
    · rw [if_neg hlen, List.take_append_of_le_length (by omega)]

/-- C9: in the agent forwarder, once the header separator is located at
`hend`: with a `Content-Length` of `cl` the body is the first `cl` bytes
of everything available (the bytes already read past the separator
followed by the remaining stream chunks) — so reading continues to `cl`,
overrun is truncated, and an early EOF leaves the shorter body — and
without a `Content-Length` the body is exactly the bytes already read
past the separator. -/
theorem agent_body_spec (buf : Bytes) (hend cl : Nat) (chunks : List Bytes)
    (hch : ∀ c ∈ chunks, c ≠ []) :
    responseBodyOf buf hend (some cl) chunks =
      (buf.drop (hend + 4) ++ chunks.flatten).take cl ∧
      (responseBodyOf buf hend (some cl) chunks).length =
        min cl (buf.drop (hend + 4) ++ chunks.flatten).length ∧
      responseBodyOf buf hend none chunks = buf.drop (hend + 4) := by
  have h1 : responseBodyOf buf hend (some cl) chunks =
      (buf.drop (hend + 4) ++ chunks.flatten).take cl := by
    show truncateBody (fillBody chunks (buf.drop (hend + 4)) cl) cl =
      (buf.drop (hend + 4) ++ chunks.flatten).take cl
    rw [truncate_take, fillBody_take _ _ _ hch]
  refine ⟨h1, ?_, rfl⟩
  rw [h1, List.length_take]

/-- C9 witness: header separator at index 1 of `H\r\n\r\nAB`, one more
stream chunk `CD`, Content-Length 3: the body is `ABC`; without a
Content-Length it is `AB`. -/
theorem agent_body_spec_witness :
    responseBodyOf [72, 13, 10, 13, 10, 65, 66] 1 (some 3) [[67, 68]] =
      (([72, 13, 10, 13, 10, 65, 66] : Bytes).drop (1 + 4) ++
        ([[67, 68]] : List Bytes).flatten).take 3 ∧
      (responseBodyOf [72, 13, 10, 13, 10, 65, 66] 1 (some 3) [[67, 68]]).length =
        min 3 (([72, 13, 10, 13, 10, 65, 66] : Bytes).drop (1 + 4) ++
          ([[67, 68]] : List Bytes).flatten).length ∧
      responseBodyOf [72, 13, 10, 13, 10, 65, 66] 1 none [[67, 68]] =
        ([72, 13, 10, 13, 10, 65, 66] : Bytes).drop (1 + 4) :=
  agent_body_spec [72, 13, 10, 13, 10, 65, 66] 1 3 [[67, 68]] (by decide)

/-! ## Decimal print/parse round trip, for claim C10 -/

theorem parseDigitsAux_append (xs ys : List Char) (acc : Nat) :
    parseDigitsAux acc (xs ++ ys) =
      (parseDigitsAux acc xs).bind fun a => parseDigitsAux a ys := by
  induction xs generalizing acc with
  | nil => simp [parseDigitsAux]
  | cons c cs ih =>
    simp only [List.cons_append, parseDigitsAux]
    by_cases h : c.isDigit
    · rw [if_pos h, if_pos h]
      exact ih _
    · rw [if_neg h, if_neg h]
      simp

theorem decDigitChar_spec (m : Nat) (hm : m < 10) :
    (decDigitChar m).isDigit = true ∧ (decDigitChar m).toNat = 48 + m := by
  interval_cases m <;> exact ⟨by decide, by decide⟩

theorem parseDigitsAux_decDigits (n : Nat) :
    ∀ acc, parseDigitsAux acc (decDigits n) = some (acc * 10 ^ (decDigits n).length + n) := by
  induction n using Nat.strong_induction_on with
  | _ n ih =>
    intro acc
    by_cases h : n = 0
    · subst h
      rw [decDigits]
      simp [parseDigitsAux]
    · have hd := decDigitChar_spec (n % 10) (Nat.mod_lt n (by decide))
      rw [decDigits, dif_neg h, parseDigitsAux_append,
        ih (n / 10) (Nat.div_lt_self (Nat.pos_of_ne_zero h) (by decide)) acc]
      simp only [Option.some_bind, parseDigitsAux, hd.1, if_true, hd.2,
        List.length_append, List.length_cons, List.length_nil]
      congr 1
      have h48 : 48 + n % 10 - 48 = n % 10 := by omega
      rw [h48, pow_succ]
      calc (acc * 10 ^ (decDigits (n / 10)).length + n / 10) * 10 + n % 10
          = acc * (10 ^ (decDigits (n / 10)).length * 10) + (n / 10 * 10 + n % 10) := by ring
        _ = acc * (10 ^ (decDigits (n / 10)).length * 10) + n := by
            congr 1
            omega

theorem decDigits_length_le (k : Nat) : ∀ n, n < 10 ^ k → (decDigits n).length ≤ k := by
  induction k with
  | zero =>
    intro n h
    have h0 : n = 0 := by simpa using h
    subst h0
    rw [decDigits]
    simp
  | succ k ih =>
    intro n h
    by_cases h0 : n = 0
    · subst h0
      rw [decDigits]
      simp
    · rw [decDigits, dif_neg h0]
      have hdiv : n / 10 < 10 ^ k := by
        have hp : (10 : Nat) ^ (k + 1) = 10 ^ k * 10 := pow_succ 10 k
        omega
      have := ih (n / 10) hdiv
      simp only [List.length_append, List.length_cons, List.length_nil]
      omega

theorem decDigits_all_digit (n : Nat) : ∀ c ∈ decDigits n, c.isDigit = true := by
  induction n using Nat.strong_induction_on with
  | _ n ih =>
    by_cases h : n = 0
    · rw [decDigits]
      simp [h]
    · rw [decDigits, dif_neg h]
      intro c hc
      rcases List.mem_append.mp hc with hmem | hmem
      · exact ih (n / 10) (Nat.div_lt_self (Nat.pos_of_ne_zero h) (by decide)) c hmem
      · rcases List.mem_singleton.mp hmem with rfl
        exact (decDigitChar_spec (n % 10) (Nat.mod_lt n (by decide))).1

theorem showNat_all_digit (n : Nat) : ∀ c ∈ showNat n, c.isDigit = true := by
  unfold showNat
  by_cases h : n = 0
  · rw [if_pos h]
    intro c hc
    rcases List.mem_singleton.mp hc with rfl
    decide
  · rw [if_neg h]
    exact decDigits_all_digit n

theorem decDigits_ne_nil (n : Nat) (h : n ≠ 0) : decDigits n ≠ [] := by
  rw [decDigits, dif_neg h]
  simp

theorem decDigits_head_ne_zero (n : Nat) (h : n ≠ 0) :
    ∀ c cs, decDigits n = c :: cs → c ≠ '0' := by
  induction n using Nat.strong_induction_on with
  | _ n ih =>
    intro c cs hEq heq0
    by_cases h10 : n / 10 = 0
    · have hnil : decDigits (n / 10) = [] := by rw [decDigits, dif_pos h10]
      rw [decDigits, dif_neg h, hnil, List.nil_append] at hEq
      have hc : c = decDigitChar (n % 10) := by
        injection hEq with h1 h2
        exact h1.symm
      have hm : n % 10 ≠ 0 := by omega
      have hspec := (decDigitChar_spec (n % 10) (Nat.mod_lt n (by decide))).2
      rw [← hc, heq0] at hspec
      simp at hspec
      omega
    · rw [decDigits, dif_neg h] at hEq
      rcases hne : decDigits (n / 10) with _ | ⟨c1, cs1⟩
      · exact absurd hne (decDigits_ne_nil _ h10)
      · rw [hne, List.cons_append] at hEq
        have hc : c1 = c := by
          injection hEq with h1 h2
        exact ih (n / 10) (Nat.div_lt_self (Nat.pos_of_ne_zero h) (by decide)) h10 c1 cs1 hne
          (hc.trans heq0)

theorem parseOctet_showNat (a : Nat) (ha : a ≤ 255) : parseOctet (showNat a) = some a := by
  by_cases h0 : a = 0
  · subst h0
    decide
  · have hsn : showNat a = decDigits a := by
      unfold showNat
      rw [if_neg h0]
    rcases hne : decDigits a with _ | ⟨c, cs⟩
    · exact absurd hne (decDigits_ne_nil _ h0)
    · rw [hsn, hne]
      simp only [parseOctet]
      have hc0 : c ≠ '0' := decDigits_head_ne_zero a h0 c cs hne
      rw [if_neg (by tauto)]
      have hlen : (decDigits a).length ≤ 3 := decDigits_length_le 3 a (by omega)
      rw [hne] at hlen
      rw [if_neg (by omega)]
      have hpd : parseDigitsAux 0 (c :: cs) = some a := by
        have hx := parseDigitsAux_decDigits a 0
        rw [hne] at hx
        simpa using hx
      rw [hpd]
      simp [ha]

theorem splitOnChar_not_mem (sep : Char) (xs : List Char) (h : ∀ c ∈ xs, c ≠ sep) :
    splitOnChar sep xs = [xs] := by
  induction xs with
  | nil => rfl
  | cons c cs ih =>
    rw [splitOnChar, if_neg (h c (by simp)), ih fun x hx => h x (by simp [hx])]

theorem splitOnChar_append (sep : Char) (xs ys : List Char) (h : ∀ c ∈ xs, c ≠ sep) :
    splitOnChar sep (xs ++ sep :: ys) = xs :: splitOnChar sep ys := by
  induction xs with
  | nil => simp [splitOnChar]
  | cons c cs ih =>
    rw [List.cons_append, splitOnChar, if_neg (h c (by simp)),
      ih fun x hx => h x (by simp [hx])]

theorem isDigit_ne (c : Char) (h : c.isDigit = true) : c ≠ '.' ∧ c ≠ '/' ∧ c ≠ '+' := by
  refine ⟨fun hc => ?_, fun hc => ?_, fun hc => ?_⟩ <;> subst hc <;> exact absurd h (by decide)

theorem mkIpv4Str_chars (a b c d : Nat) :
    ∀ ch ∈ mkIpv4Str a b c d, ch.isDigit = true ∨ ch = '.' := by
  intro ch hch
  unfold mkIpv4Str at hch
  rcases List.mem_append.mp hch with h1 | h1
  · exact Or.inl (showNat_all_digit a ch h1)
  rcases List.mem_cons.mp h1 with h2 | h2
  · exact Or.inr h2
  rcases List.mem_append.mp h2 with h3 | h3
  · exact Or.inl (showNat_all_digit b ch h3)
  rcases List.mem_cons.mp h3 with h4 | h4
  · exact Or.inr h4
  rcases List.mem_append.mp h4 with h5 | h5
  · exact Or.inl (showNat_all_digit c ch h5)
  rcases List.mem_cons.mp h5 with h6 | h6
  · exact Or.inr h6
  · exact Or.inl (showNat_all_digit d ch h6)

theorem parseIpv4_mk (a b c d : Nat) (ha : a ≤ 255) (hb : b ≤ 255) (hc : c ≤ 255)
    (hd : d ≤ 255) : parseIpv4 (mkIpv4Str a b c d) = some (ipv4Val a b c d) := by
  have hsplit : splitOnChar '.' (mkIpv4Str a b c d) =
      [showNat a, showNat b, showNat c, showNat d] := by
    unfold mkIpv4Str
    rw [splitOnChar_append _ _ _ fun x hx => (isDigit_ne x (showNat_all_digit a x hx)).1,
      splitOnChar_append _ _ _ fun x hx => (isDigit_ne x (showNat_all_digit b x hx)).1,
      splitOnChar_append _ _ _ fun x hx => (isDigit_ne x (showNat_all_digit c x hx)).1,
      splitOnChar_not_mem _ _ fun x hx => (isDigit_ne x (showNat_all_digit d x hx)).1]
  simp only [parseIpv4, hsplit, parseOctet_showNat a ha, parseOctet_showNat b hb,
    parseOctet_showNat c hc, parseOctet_showNat d hd, ipv4Val]

theorem land_land_self (x m : Nat) : x &&& m &&& m = x &&& m := by
  apply Nat.eq_of_testBit_eq
  intro i
  simp [Nat.testBit_land, Bool.and_assoc]

theorem parseNat_ne_nil (cs : List Char) (h : cs ≠ []) :
    parseNat cs = parseDigitsAux 0 cs := by
  cases cs with
  | nil => exact absurd rfl h
  | cons c rest => rfl

theorem stripPlus_digits (cs : List Char) (h : ∀ c ∈ cs, c.isDigit = true) :
    stripPlus cs = cs := by
  cases cs with
  | nil => rfl
  | cons c rest =>
    unfold stripPlus
    split
    · rename_i heq
      injection heq with h1 h2
      subst h1
      exact absurd (h '+' (by simp)) (by decide)
    · rfl

theorem showNat_ne_nil (p : Nat) : showNat p ≠ [] := by
  unfold showNat
  by_cases h : p = 0
  · simp [h]
  · rw [if_neg h]
    exact decDigits_ne_nil p h

theorem parseNat_showNat (p : Nat) : parseNat (showNat p) = some p := by
  rw [parseNat_ne_nil _ (showNat_ne_nil p)]
  by_cases h : p = 0
  · subst h
    decide
  · have hsn : showNat p = decDigits p := by
      unfold showNat
      rw [if_neg h]
    rw [hsn]
    simpa using parseDigitsAux_decDigits p 0

theorem parseU32_showNat (p : Nat) :
    parseU32 (showNat p) = if p < 4294967296 then some p else none := by
  unfold parseU32
  rw [stripPlus_digits _ (showNat_all_digit p), parseNat_showNat p]

/-! ## Claim C10 -/

/-- C10: CIDR parsing and containment round-trip.  For every dotted quad
`a.b.c.d` and prefix `p ≤ 32`, `parse "a.b.c.d/p"` succeeds with the
network `a.b.c.d & mask`; the parsed range contains `a.b.c.d`; any IPv4
address whose masked value differs from the network is not contained; no
IPv6 address is ever contained; and any prefix `q > 32` is rejected. -/
theorem cidr_parse_spec (a b c d p q x y : Nat)
    (ha : a ≤ 255) (hb : b ≤ 255) (hc : c ≤ 255) (hd : d ≤ 255)
    (hp : p ≤ 32) (hq : 32 < q)
    (hx : x &&& maskOf p ≠ ipv4Val a b c d &&& maskOf p) :
    CidrRange.parse (mkCidrStr a b c d p) =
      some { network := ipv4Val a b c d &&& maskOf p, mask := maskOf p,
             raw := mkCidrStr a b c d p } ∧
      CidrRange.contains
          { network := ipv4Val a b c d &&& maskOf p, mask := maskOf p,
            raw := mkCidrStr a b c d p } (IpAddr.v4 (ipv4Val a b c d)) = true ∧
      CidrRange.contains
          { network := ipv4Val a b c d &&& maskOf p, mask := maskOf p,
            raw := mkCidrStr a b c d p } (IpAddr.v4 x) = false ∧
      CidrRange.contains
          { network := ipv4Val a b c d &&& maskOf p, mask := maskOf p,
            raw := mkCidrStr a b c d p } (IpAddr.v6 y) = false ∧
      CidrRange.parse (mkCidrStr a b c d q) = none := by
  have hnoSlashIp : ∀ ch ∈ mkIpv4Str a b c d, ch ≠ '/' := by
    intro ch hch
    rcases mkIpv4Str_chars a b c d ch hch with h1 | h1
    · exact (isDigit_ne ch h1).2.1
    · subst h1
      decide
  have hsplitP : splitOnChar '/' (mkCidrStr a b c d p) = [mkIpv4Str a b c d, showNat p] := by
    unfold mkCidrStr
    rw [splitOnChar_append _ _ _ hnoSlashIp,
      splitOnChar_not_mem _ _ fun ch hch => (isDigit_ne ch (showNat_all_digit p ch hch)).2.1]
  have hsplitQ : splitOnChar '/' (mkCidrStr a b c d q) = [mkIpv4Str a b c d, showNat q] := by
    unfold mkCidrStr
    rw [splitOnChar_append _ _ _ hnoSlashIp,
      splitOnChar_not_mem _ _ fun ch hch => (isDigit_ne ch (showNat_all_digit q ch hch)).2.1]
  refine ⟨?_, ?_, ?_, ?_, ?_⟩
  · have hu : parseU32 (showNat p) = some p := by
      rw [parseU32_showNat p, if_pos (by omega)]
    simp only [CidrRange.parse, hsplitP, parseIpv4_mk a b c d ha hb hc hd, hu]
    rw [if_neg (by omega : ¬ (32 < p))]
    rfl
  · simp [CidrRange.contains]
  · simp only [CidrRange.contains]
    exact decide_eq_false hx
  · rfl
  · by_cases hq32 : q < 4294967296
    · have hu : parseU32 (showNat q) = some q := by
        rw [parseU32_showNat q, if_pos hq32]
      simp only [CidrRange.parse, hsplitQ, parseIpv4_mk a b c d ha hb hc hd, hu]
      rw [if_pos hq]
    · have hu : parseU32 (showNat q) = none := by
        rw [parseU32_showNat q, if_neg hq32]
      simp only [CidrRange.parse, hsplitQ, parseIpv4_mk a b c d ha hb hc hd, hu]

/-- C10 witness: `192.168.1.0/24` parses to the expected range, which
contains `192.168.1.0`, excludes `192.168.2.1` and every IPv6 address,
and `/33` is rejected. -/
theorem cidr_parse_spec_witness :
    CidrRange.parse (mkCidrStr 192 168 1 0 24) =
      some { network := ipv4Val 192 168 1 0 &&& maskOf 24, mask := maskOf 24,
             raw := mkCidrStr 192 168 1 0 24 } ∧
      CidrRange.contains
          { network := ipv4Val 192 168 1 0 &&& maskOf 24, mask := maskOf 24,
            raw := mkCidrStr 192 168 1 0 24 } (IpAddr.v4 (ipv4Val 192 168 1 0)) = true ∧
      CidrRange.contains
          { network := ipv4Val 192 168 1 0 &&& maskOf 24, mask := maskOf 24,
            raw := mkCidrStr 192 168 1 0 24 } (IpAddr.v4 (ipv4Val 192 168 2 1)) = false ∧
      CidrRange.contains
          { network := ipv4Val 192 168 1 0 &&& maskOf 24, mask := maskOf 24,
            raw := mkCidrStr 192 168 1 0 24 } (IpAddr.v6 1) = false ∧
      CidrRange.parse (mkCidrStr 192 168 1 0 33) = none :=
  cidr_parse_spec 192 168 1 0 24 33 (ipv4Val 192 168 2 1) 1 (by decide) (by decide)
    (by decide) (by decide) (by decide) (by decide) (by decide)

/-! ## Claim C3 -/

/-- C3: when no client IP can be extracted from the headers (the peer
address is never consulted — the handler always passes `none` for it),
the IP filter check is skipped and the request proceeds past the filter
to request-id allocation, even for a tunnel whose filter and allow list
are non-empty. -/
theorem ip_filter_skipped_without_header_ip (env : ProxyEnv) (t : Tunnel)
    (hlookup : regLookup env.registry (subdomainOf env.host) = some t)
    (hextract : extract_client_ip env.headers none = none)
    (hfilter : t.ip_filter.is_empty = false)
    (hallow : t.ip_filter.allow ≠ []) :
    (proxy_handler env).filterRejected = false ∧ (proxy_handler env).idAllocated = true := by
  have hrej : filterRejects env.headers t = false := by
    unfold filterRejects
    rw [hextract]
    simp
  simp only [proxy_handler, hlookup, hrej, Bool.false_eq_true, if_false]
  rcases htry : t.circuit_breaker.try_send env.now (requestFrameOf env) with ⟨cb, out⟩
  cases out with
  | pass =>
    cases hs : env.sendOk with
    | false => simp [ProxyResult.base]
    | true => cases env.awaitOutcome <;> simp [ProxyResult.base]
  | queued => simp [ProxyResult.base]
  | dropped => simp [ProxyResult.base]

/-- C3 witness: a tunnel with a non-empty allow list and a request whose
only forwarding header is unparseable; the filter is skipped. -/
theorem ip_filter_skipped_without_header_ip_witness :
    (proxy_handler
        { registry := [("app",
            { subdomain := "app"
              ip_filter :=
                { allow := [{ network := 167772160, mask := 4278190080, raw := "10.0.0.0/8".data }]
                  deny := [] }
              circuit_breaker := cbClosedDefault })]
          host := "app.example.com"
          method := "GET"
          path := "/"
          headers := [("x-forwarded-for", "not-an-ip")]
          rawBody := []
          requestId := "r1"
          now := 0
          sendOk := true
          awaitOutcome := AwaitOutcome.response
            { id := "r1", status := 200, headers := [], body := none } }).filterRejected =
        false ∧
      (proxy_handler
        { registry := [("app",
            { subdomain := "app"
              ip_filter :=
                { allow := [{ network := 167772160, mask := 4278190080, raw := "10.0.0.0/8".data }]
                  deny := [] }
              circuit_breaker := cbClosedDefault })]
          host := "app.example.com"
          method := "GET"
          path := "/"
          headers := [("x-forwarded-for", "not-an-ip")]
          rawBody := []
          requestId := "r1"
          now := 0
          sendOk := true
          awaitOutcome := AwaitOutcome.response
            { id := "r1", status := 200, headers := [], body := none } }).idAllocated = true :=
  ip_filter_skipped_without_header_ip
    { registry := [("app",
        { subdomain := "app"
          ip_filter :=
            { allow := [{ network := 167772160, mask := 4278190080, raw := "10.0.0.0/8".data }]
              deny := [] }
          circuit_breaker := cbClosedDefault })]
      host := "app.example.com"
      method := "GET"
      path := "/"
      headers := [("x-forwarded-for", "not-an-ip")]
      rawBody := []
      requestId := "r1"
      now := 0
      sendOk := true
      awaitOutcome := AwaitOutcome.response
        { id := "r1", status := 200, headers := [], body := none } }
    { subdomain := "app"
      ip_filter :=
        { allow := [{ network := 167772160, mask := 4278190080, raw := "10.0.0.0/8".data }]
          deny := [] }
      circuit_breaker := cbClosedDefault }
    (by decide) (by decide) (by decide) (by decide)

/-! ## Claim C6 -/

/-- C6: the proxy handler's failure taxonomy — 404 for an unknown
subdomain, 403 for an IP-filter rejection (before the breaker), 503 when
`try_send` queues or drops the frame (before the pending insert), 502 on
an outbound-enqueue failure or a closed receptacle, 504 on the response
timeout; on each 502/504 path the pending entry is removed and a breaker
failure is recorded. -/
theorem proxy_status_spec (env : ProxyEnv) (t : Tunnel) (cb : CircuitBreaker) :
    (regLookup env.registry (subdomainOf env.host) = none →
      proxy_handler env = { ProxyResult.base none with status := 404 }) ∧
    (regLookup env.registry (subdomainOf env.host) = some t →
      filterRejects env.headers t = true →
      proxy_handler env =
        { ProxyResult.base (some t.circuit_breaker) with
            status := 403
            filterRejected := true }) ∧
    (regLookup env.registry (subdomainOf env.host) = some t →
      filterRejects env.headers t = false →
      t.circuit_breaker.try_send env.now (requestFrameOf env) = (cb, TrySendOutcome.queued) →
      proxy_handler env =
        { ProxyResult.base (some cb) with
            status := 503
            idAllocated := true
            trySendInvoked := true }) ∧
    (regLookup env.registry (subdomainOf env.host) = some t →
      filterRejects env.headers t = false →
      t.circuit_breaker.try_send env.now (requestFrameOf env) = (cb, TrySendOutcome.dropped) →
      proxy_handler env =
        { ProxyResult.base (some cb) with
            status := 503
            idAllocated := true
            trySendInvoked := true }) ∧
    (regLookup env.registry (subdomainOf env.host) = some t →
      filterRejects env.headers t = false →
      t.circuit_breaker.try_send env.now (requestFrameOf env) = (cb, TrySendOutcome.pass) →
      env.sendOk = false →
      proxy_handler env =
        { ProxyResult.base (some (cb.record_failure env.now)) with
            status := 502
            idAllocated := true
            trySendInvoked := true
            pendingInserted := true
            pendingRemoved := true
            failureRecorded := true
            enqueueAttempted := true }) ∧
    (regLookup env.registry (subdomainOf env.host) = some t →
      filterRejects env.headers t = false →
      t.circuit_breaker.try_send env.now (requestFrameOf env) = (cb, TrySendOutcome.pass) →
      env.sendOk = true →
      env.awaitOutcome = AwaitOutcome.closed →
      proxy_handler env =
        { ProxyResult.base (some (cb.record_failure env.now)) with
            status := 502
            idAllocated := true
            trySendInvoked := true
            pendingInserted := true
            pendingRemoved := true
            failureRecorded := true
            enqueueAttempted := true }) ∧
    (regLookup env.registry (subdomainOf env.host) = some t →
      filterRejects env.headers t = false →
      t.circuit_breaker.try_send env.now (requestFrameOf env) = (cb, TrySendOutcome.pass) →
      env.sendOk = true →
      env.awaitOutcome = AwaitOutcome.timedOut →
      proxy_handler env =
        { ProxyResult.base (some (cb.record_failure env.now)) with
            status := 504
            idAllocated := true
            trySendInvoked := true
            pendingInserted := true
            pendingRemoved := true
            failureRecorded := true
            enqueueAttempted := true }) := by
  refine ⟨?_, ?_, ?_, ?_, ?_, ?_, ?_⟩
  · intro h1
    simp [proxy_handler, h1]
  · intro h1 h2
    simp [proxy_handler, h1, h2]
  · intro h1 h2 h3
    simp [proxy_handler, h1, h2, h3]
  · intro h1 h2 h3
    simp [proxy_handler, h1, h2, h3]
  · intro h1 h2 h3 h4
    simp [proxy_handler, h1, h2, h3, h4]
  · intro h1 h2 h3 h4 h5
    simp [proxy_handler, h1, h2, h3, h4, h5]
  · intro h1 h2 h3 h4 h5
    simp [proxy_handler, h1, h2, h3, h4, h5]

/-- C6 witness: a request for an unregistered subdomain yields the 404
outcome, and a timed-out await on a healthy Closed breaker yields the
504 outcome with the pending entry removed and a failure recorded. -/
theorem proxy_status_spec_witness :
    proxy_handler
        { registry := []
          host := "ghost.example.com"
          method := "GET"
          path := "/"
          headers := []
          rawBody := []
          requestId := "r1"
          now := 0
          sendOk := true
          awaitOutcome := AwaitOutcome.timedOut } =
      { ProxyResult.base none with status := 404 } ∧
    proxy_handler
        { registry := [("app",
            { subdomain := "app", ip_filter := IpFilter.default,
              circuit_breaker := cbClosedDefault })]
          host := "app.example.com"
          method := "GET"
          path := "/"
          headers := []
          rawBody := []
          requestId := "r1"
          now := 7
          sendOk := true
          awaitOutcome := AwaitOutcome.timedOut } =
      { ProxyResult.base (some (cbClosedDefault.record_failure 7)) with
          status := 504
          idAllocated := true
          trySendInvoked := true
          pendingInserted := true
          pendingRemoved := true
          failureRecorded := true
          enqueueAttempted := true } :=
  ⟨(proxy_status_spec
      { registry := []
        host := "ghost.example.com"
        method := "GET"
        path := "/"
        headers := []
        rawBody := []
        requestId := "r1"
        now := 0
        sendOk := true
        awaitOutcome := AwaitOutcome.timedOut }
      { subdomain := "", ip_filter := IpFilter.default, circuit_breaker := cbClosedDefault }
      cbClosedDefault).1 (by decide),
    (proxy_status_spec
      { registry := [("app",
          { subdomain := "app", ip_filter := IpFilter.default,
            circuit_breaker := cbClosedDefault })]
        host := "app.example.com"
        method := "GET"
        path := "/"
        headers := []
        rawBody := []
        requestId := "r1"
        now := 7
        sendOk := true
        awaitOutcome := AwaitOutcome.timedOut }
      { subdomain := "app", ip_filter := IpFilter.default, circuit_breaker := cbClosedDefault }
      cbClosedDefault).2.2.2.2.2.2 (by decide) (by decide) (by decide) (by decide) (by decide)⟩

/-! ## Claim C1 -/

/-- C1 (code bug evidence): a request whose body exceeds the 10 MiB
bound is **not** rejected — the over-limit read error is collapsed to
`body = none`, and the request is forwarded to the agent bodiless: a
request id is allocated, the frame goes through the breaker and onto the
outbound queue, and the agent's 200 response is returned to the caller. -/
theorem oversized_body_forwarded_bug (body : Bytes)
    (h : 10 * 1024 * 1024 < body.length) :
    proxy_handler
        { registry := [("app",
            { subdomain := "app", ip_filter := IpFilter.default,
              circuit_breaker := cbClosedDefault })]
          host := "app.example.com"
          method := "POST"
          path := "/upload"
          headers := []
          rawBody := body
          requestId := "r1"
          now := 0
          sendOk := true
          awaitOutcome := AwaitOutcome.response
            { id := "r1", status := 200, headers := [], body := some [104, 105] } } =
      { ProxyResult.base (some cbClosedDefault) with
          status := 200
          idAllocated := true
          trySendInvoked := true
          pendingInserted := true
          enqueueAttempted := true
          responseBody := [104, 105] } := by
  have hb : bodyBytesOf body = none := by
    unfold bodyBytesOf toBytesLimited
    rw [if_neg (by omega)]
  simp only [proxy_handler, requestFrameOf, hb]
  decide

/-- C1 witness: a concrete 10 MiB + 1 body is silently dropped and the
request forwarded. -/
theorem oversized_body_forwarded_bug_witness :
    proxy_handler
        { registry := [("app",
            { subdomain := "app", ip_filter := IpFilter.default,
              circuit_breaker := cbClosedDefault })]
          host := "app.example.com"
          method := "POST"
          path := "/upload"
          headers := []
          rawBody := List.replicate 10485761 0
          requestId := "r1"
          now := 0
          sendOk := true
          awaitOutcome := AwaitOutcome.response
            { id := "r1", status := 200, headers := [], body := some [104, 105] } } =
      { ProxyResult.base (some cbClosedDefault) with
          status := 200
          idAllocated := true
          trySendInvoked := true
          pendingInserted := true
          enqueueAttempted := true
          responseBody := [104, 105] } :=
  oversized_body_forwarded_bug (List.replicate 10485761 0)
    (by simp only [List.length_replicate]; omega)

end Ztunnel
